import Mathlib

/-!
# Verification of the cart and catalog-filter core

Shallow embedding of the storefront repository's two core components:

* the cart state engine of `src/context/CartContext.js` (`addToCart`,
  `removeFromCart`, `updateQuantity`, `clearCart`, the aggregate getters
  and the localStorage persistence effects), and
* the catalog filter of `components/CategoryPage.js` (the
  `PRODUCTS.filter` predicate over category selectors).

JavaScript numbers are modelled as `ℚ` for prices and `ℤ` for ids and
quantities; fields that may be absent (`undefined`/`null`) are modelled
as `Option`.
-/

namespace Marks

/-- A catalog product as passed to `addToCart`.  Call sites
(`ProductCard.handleAddToCart`, `ProductDetail.handleAddToCart`) spread
caller-chosen `selectedColor` / `selectedSize` fields into the product
object before handing it to the store, so they appear here as optional
fields of the product record. -/
structure Product where
  id : Int
  name : String
  price : ℚ
  originalPrice : Option ℚ := none
  category : Option String := none
  onSale : Bool := false
  featured : Bool := false
  selectedColor : Option String := none
  selectedSize : Option String := none
deriving DecidableEq

/-- One line of the cart snapshot: the denormalized copy of the product
fields made by `{ ...product, quantity }` in `addToCart`, plus the
quantity. -/
structure CartEntry where
  id : Int
  name : String
  price : ℚ
  originalPrice : Option ℚ := none
  category : Option String := none
  onSale : Bool := false
  featured : Bool := false
  selectedColor : Option String := none
  selectedSize : Option String := none
  quantity : Int
deriving DecidableEq

/-- `{ ...product, quantity }` of `addToCart`'s append branch. -/
def toEntry (product : Product) (quantity : Int) : CartEntry :=
  { id := product.id
    name := product.name
    price := product.price
    originalPrice := product.originalPrice
    category := product.category
    onSale := product.onSale
    featured := product.featured
    selectedColor := product.selectedColor
    selectedSize := product.selectedSize
    quantity := quantity }

/-- `addToCart` (CartContext.js): if an entry with the product's id
exists, increment its quantity; otherwise append `{ ...product, quantity }`. -/
def addToCart (product : Product) (quantity : Int)
    (prevItems : List CartEntry) : List CartEntry :=
  if prevItems.any (fun item => decide (item.id = product.id)) then
    prevItems.map (fun item =>
      if item.id = product.id then
        { item with quantity := item.quantity + quantity }
      else item)
  else
    prevItems ++ [toEntry product quantity]

/-- `removeFromCart` (CartContext.js): drop every entry whose id matches. -/
def removeFromCart (productId : Int) (prevItems : List CartEntry) :
    List CartEntry :=
  prevItems.filter (fun item => decide (item.id ≠ productId))

/-- `updateQuantity` (CartContext.js): non-positive quantity delegates to
`removeFromCart`; otherwise overwrite the quantity of the matching entry
in place. -/
def updateQuantity (productId : Int) (quantity : Int)
    (prevItems : List CartEntry) : List CartEntry :=
  if quantity ≤ 0 then
    removeFromCart productId prevItems
  else
    prevItems.map (fun item =>
      if item.id = productId then { item with quantity := quantity }
      else item)

/-- `clearCart` (CartContext.js). -/
def clearCart (_prevItems : List CartEntry) : List CartEntry := []

/-- `getTotalItems` (CartContext.js): `reduce((total, item) => total + item.quantity, 0)`. -/
def getTotalItems (cartItems : List CartEntry) : Int :=
  cartItems.foldl (fun total item => total + item.quantity) 0

/-- `getTotalPrice` (CartContext.js): `reduce((total, item) => total + item.price * item.quantity, 0)`. -/
def getTotalPrice (cartItems : List CartEntry) : ℚ :=
  cartItems.foldl (fun total item => total + item.price * (item.quantity : ℚ)) 0

/-- `isCartEmpty` (CartContext.js): `cartItems.length === 0`. -/
def isCartEmpty (cartItems : List CartEntry) : Bool :=
  cartItems.length = 0

/-- Modelled from the spec: `getOriginalTotalPrice` is destructured from
the cart context by `components/ShoppingCart.js` but its definition is
missing from `src/context/CartContext.js`; the spec defines it as the
sum of `(originalPrice ?? price) × quantity` over all entries. -/
def getOriginalTotalPrice (cartItems : List CartEntry) : ℚ :=
  cartItems.foldl
    (fun total item =>
      total + (item.originalPrice.getD item.price) * (item.quantity : ℚ)) 0

/-- Modelled from the spec: `getTotalDiscount` is destructured from the
cart context by `components/ShoppingCart.js` but its definition is
missing from `src/context/CartContext.js`; the spec defines it as
`originalTotalPrice − totalPrice`, floored at 0. -/
def getTotalDiscount (cartItems : List CartEntry) : ℚ :=
  max (getOriginalTotalPrice cartItems - getTotalPrice cartItems) 0

/-- A sample product used for concrete evaluations. -/
def sampleProduct : Product :=
  { id := 1
    name := "Steel Toe Boot"
    price := 10
    originalPrice := some 12
    category := some "Work Boots & Shoes"
    selectedColor := some "Black"
    selectedSize := some "9" }

/-- A second sample product with the same id but different captured
fields, exercising the merge branch of `addToCart`. -/
def sampleProductAlt : Product :=
  { id := 1
    name := "Steel Toe Boot"
    price := 99
    originalPrice := none
    category := some "Work Boots & Shoes"
    selectedColor := some "Brown"
    selectedSize := some "10" }

/-- A sample product with a different id. -/
def otherProduct : Product :=
  { id := 2
    name := "Rain Jacket"
    price := 25 }

example : addToCart sampleProduct 2 [] = [toEntry sampleProduct 2] := by decide

example :
    addToCart sampleProduct 3 (addToCart sampleProduct 2 []) =
      [toEntry sampleProduct 5] := by decide

example : updateQuantity 1 0 [toEntry sampleProduct 2] = [] := by decide

/-! ## Operation traces

A cart history is a list of public mutations applied from the empty
snapshot, modelling the reachable states of the provider. -/

/-- One public mutation of the cart store. -/
inductive CartOp where
  | add (product : Product) (quantity : Int)
  | remove (productId : Int)
  | set (productId : Int) (quantity : Int)
  | clear
deriving DecidableEq

/-- Apply one mutation to a snapshot. -/
def applyOp (s : List CartEntry) : CartOp → List CartEntry
  | .add product quantity => addToCart product quantity s
  | .remove productId => removeFromCart productId s
  | .set productId quantity => updateQuantity productId quantity s
  | .clear => clearCart s

/-- Run a trace of mutations from the empty snapshot. -/
def runOps (ops : List CartOp) : List CartEntry :=
  ops.foldl applyOp []

/-- An `add` operation carries a positive quantity; other operations are
unconstrained. -/
def posAdd : CartOp → Prop
  | .add _ quantity => 1 ≤ quantity
  | _ => True

instance : DecidablePred posAdd := by
  intro op
  cases op <;> simp [posAdd] <;> infer_instance

/-! ## Catalog filter (`components/CategoryPage.js`)

The `PRODUCTS.filter` predicate of `CategoryPage`, rule for rule.  JS
string truthiness makes `!product.category` true for both an absent
category and the empty string. -/

/-- JS `String.prototype.toLowerCase`, modelled character by character
(ASCII case mapping, which agrees with JS on every selector and category
literal of the source). -/
def jsToLower (s : String) : String :=
  ⟨s.data.map Char.toLower⟩

/-- The filter predicate of `CategoryPage`: special promotional selectors
first, then the default case-insensitive category comparison. -/
def matchesCategory (categoryName : String) (product : Product) : Bool :=
  if jsToLower categoryName = "sale & clearance" ∨ jsToLower categoryName = "sale-clearance" then
    product.onSale
  else if jsToLower categoryName = "featured" then
    product.featured
  else if jsToLower categoryName = "cyber days" ∨ jsToLower categoryName = "cyber-days" then
    product.onSale || product.featured
  else if jsToLower categoryName = "black friday" ∨ jsToLower categoryName = "black-friday" then
    product.onSale
  else if jsToLower categoryName = "work boots & shoes" ∨ jsToLower categoryName = "work-boots-and-shoes" then
    decide (product.category = some "Work Boots & Shoes")
  else
    match product.category with
    | none => false
    | some c => if c = "" then false else decide (jsToLower c = jsToLower categoryName)

/-- `categoryProducts` of `CategoryPage`: the ordered subsequence of the
catalog matching the selector. -/
def categoryProducts (categoryName : String) (products : List Product) :
    List Product :=
  products.filter (matchesCategory categoryName)

example :
    categoryProducts "Sale & Clearance"
      [{ otherProduct with onSale := false }, { sampleProduct with onSale := true }] =
      [{ sampleProduct with onSale := true }] := by decide

example :
    categoryProducts "work-boots-and-shoes" [sampleProduct, otherProduct] =
      [sampleProduct] := by decide

/-! ## Persistence (`localStorage` + platform JSON)

The provider saves with `localStorage.setItem('shopping-cart',
JSON.stringify(cartItems))` and loads with `JSON.parse` inside a
try/catch.  The platform JSON text layer is abstracted to the parse
tree: a stored value is either absent (`getItem` returned `null`), the
empty string (falsy, skipped by `if (savedCart)`), text that
`JSON.parse` rejects (the catch branch), or text that parses to a JSON
value.  `JSON.stringify` omits object keys whose value is `undefined`,
so optional entry fields are encoded by key omission. -/

/-- A JSON value, the result of `JSON.parse` on well-formed text. -/
inductive Json where
  | null
  | bool (b : Bool)
  | num (q : ℚ)
  | str (s : String)
  | arr (elems : List Json)
  | obj (fields : List (String × Json))

/-- `JSON.stringify` of one cart entry: an object literal with the entry
fields, optional fields present only when defined. -/
def encodeEntry (e : CartEntry) : Json :=
  Json.obj
    ([("id", Json.num (e.id : ℚ)),
      ("name", Json.str e.name),
      ("price", Json.num e.price)]
      ++ (match e.originalPrice with
          | none => []
          | some q => [("originalPrice", Json.num q)])
      ++ (match e.category with
          | none => []
          | some c => [("category", Json.str c)])
      ++ [("onSale", Json.bool e.onSale),
          ("featured", Json.bool e.featured)]
      ++ (match e.selectedColor with
          | none => []
          | some c => [("selectedColor", Json.str c)])
      ++ (match e.selectedSize with
          | none => []
          | some c => [("selectedSize", Json.str c)])
      ++ [("quantity", Json.num (e.quantity : ℚ))])

/-- First value bound to a key in a JSON object (JS property lookup). -/
def jLookup (fields : List (String × Json)) (k : String) : Option Json :=
  (fields.find? (fun kv => decide (kv.fst = k))).map (fun kv => kv.snd)

/-- Read a JSON number as an integer. -/
def asInt : Json → Option Int
  | .num q => if q.den = 1 then some q.num else none
  | _ => none

/-- Read a JSON number. -/
def asRat : Json → Option ℚ
  | .num q => some q
  | _ => none

/-- Read a JSON string. -/
def asStr : Json → Option String
  | .str s => some s
  | _ => none

/-- Read a JSON boolean. -/
def asBool : Json → Option Bool
  | .bool b => some b
  | _ => none

/-- Read an optional field: an absent key decodes to `none`, a present
key must decode with `f`. -/
def decOpt (f : Json → Option α) : Option Json → Option (Option α)
  | none => some none
  | some j => (f j).map some

/-- Typed reading of one parsed entry object back into a `CartEntry`. -/
def decodeEntry : Json → Option CartEntry
  | .obj fields => do
      let id ← (jLookup fields "id").bind asInt
      let name ← (jLookup fields "name").bind asStr
      let price ← (jLookup fields "price").bind asRat
      let originalPrice ← decOpt asRat (jLookup fields "originalPrice")
      let category ← decOpt asStr (jLookup fields "category")
      let onSale ← (jLookup fields "onSale").bind asBool
      let featured ← (jLookup fields "featured").bind asBool
      let selectedColor ← decOpt asStr (jLookup fields "selectedColor")
      let selectedSize ← decOpt asStr (jLookup fields "selectedSize")
      let quantity ← (jLookup fields "quantity").bind asInt
      pure { id := id, name := name, price := price,
             originalPrice := originalPrice, category := category,
             onSale := onSale, featured := featured,
             selectedColor := selectedColor, selectedSize := selectedSize,
             quantity := quantity }
  | _ => none

/-- Decode a list of parsed entry objects. -/
def decodeEntries : List Json → Option (List CartEntry)
  | [] => some []
  | j :: rest => do
      let e ← decodeEntry j
      let es ← decodeEntries rest
      pure (e :: es)

/-- Typed reading of a whole parsed snapshot. -/
def decodeCart : Json → Option (List CartEntry)
  | .arr elems => decodeEntries elems
  | _ => none

/-- The state of the `shopping-cart` slot as `load` sees it. -/
inductive Stored where
  | absent
  | emptyText
  | corrupt
  | val (j : Json)

/-- The save effect: `JSON.stringify` the snapshot into the slot. -/
def saveCart (snapshot : List CartEntry) : Stored :=
  Stored.val (Json.arr (snapshot.map encodeEntry))

/-- The load effect of `CartProvider`: start from `[]`; a truthy stored
string that parses replaces the snapshot; a parse failure is caught and
leaves the empty snapshot. -/
def loadCart : Stored → List CartEntry
  | .absent => []
  | .emptyText => []
  | .corrupt => []
  | .val j => (decodeCart j).getD []

/-! ## Helper lemmas -/

/-- Decoding inverts encoding on a single entry. -/
theorem decodeEntry_encodeEntry (e : CartEntry) :
    decodeEntry (encodeEntry e) = some e := by
  rcases e with ⟨id, name, price, op, cat, onSale, featured, col, sz, qty⟩
  cases op <;> cases cat <;> cases col <;> cases sz <;>
    simp [decodeEntry, encodeEntry, jLookup, asInt, asRat, asStr, asBool,
      decOpt, List.find?, Option.bind, Rat.den_intCast, Rat.num_intCast]

/-- Decoding inverts encoding on a list of entries. -/
theorem decodeEntries_map_encodeEntry (s : List CartEntry) :
    decodeEntries (s.map encodeEntry) = some s := by
  induction s with
  | nil => rfl
  | cons e rest ih =>
      simp [decodeEntries, decodeEntry_encodeEntry, ih, Option.bind]

/-- Loading inverts saving. -/
theorem loadCart_saveCart (s : List CartEntry) :
    loadCart (saveCart s) = s := by
  simp [loadCart, saveCart, decodeCart, decodeEntries_map_encodeEntry]

/-- Folding an addition over a list is the starting value plus the sum
of the mapped values. -/
theorem foldl_add_map (f : CartEntry → ℚ) (s : List CartEntry) (a : ℚ) :
    s.foldl (fun total item => total + f item) a = a + (s.map f).sum := by
  induction s generalizing a with
  | nil => simp
  | cons e rest ih => simp [ih, add_assoc]

/-! ## Claim theorems -/

/-- C2: the aggregate interface provides `originalTotalPrice` equal to
the sum over all entries of `(originalPrice ?? price) × quantity`, and
`totalDiscount` equal to `originalTotalPrice − totalPrice` floored at 0,
hence non-negative on every snapshot. -/
theorem cart_aggregates_C2 (cartItems : List CartEntry) :
    getOriginalTotalPrice cartItems =
      (cartItems.map
        (fun item => (item.originalPrice.getD item.price) * (item.quantity : ℚ))).sum ∧
    getTotalDiscount cartItems =
      max (getOriginalTotalPrice cartItems - getTotalPrice cartItems) 0 ∧
    0 ≤ getTotalDiscount cartItems := by
  refine ⟨?_, rfl, le_max_right _ 0⟩
  simpa using foldl_add_map
    (fun item => (item.originalPrice.getD item.price) * (item.quantity : ℚ))
    cartItems 0

/-- C7: saving a snapshot through the persistence adapter and loading it
back returns the same snapshot. -/
theorem persistence_roundtrip_C7 (s : List CartEntry) :
    loadCart (saveCart s) = s :=
  loadCart_saveCart s

/-- C6: `load` returns the previously saved snapshot, and the empty
sequence when no saved value exists, when the stored text is empty, or
when deserialization of the stored value fails; the failure case is the
caught branch, so no exception reaches the caller. -/
theorem load_error_handling_C6 :
    (∀ s : List CartEntry, loadCart (saveCart s) = s) ∧
    loadCart Stored.absent = [] ∧
    loadCart Stored.emptyText = [] ∧
    loadCart Stored.corrupt = [] :=
  ⟨loadCart_saveCart, rfl, rfl, rfl⟩

/-- C5: with a non-positive quantity, `updateQuantity` produces exactly
the snapshot `removeFromCart` produces; with a positive quantity and the
entry present it keeps the length and, position by position, replaces
only the matching entry's quantity. -/
theorem setQuantity_C5 (productId q : Int) (s : List CartEntry) :
    (q ≤ 0 → updateQuantity productId q s = removeFromCart productId s) ∧
    (0 < q → (∃ e ∈ s, e.id = productId) →
      (updateQuantity productId q s).length = s.length ∧
      ∀ i : Nat, (updateQuantity productId q s)[i]? =
        (s[i]?).map (fun e =>
          if e.id = productId then { e with quantity := q } else e)) := by
  constructor
  · intro h
    simp [updateQuantity, h]
  · intro hq _
    have hne : ¬ q ≤ 0 := not_le.mpr hq
    refine ⟨by simp [updateQuantity, hne], fun i => ?_⟩
    simp [updateQuantity, hne, List.getElem?_map]

/-- C5 witness: concrete instances of both branches of `setQuantity_C5`. -/
theorem setQuantity_C5_witness :
    updateQuantity 1 0 [toEntry sampleProduct 2] =
      removeFromCart 1 [toEntry sampleProduct 2] ∧
    (updateQuantity 1 5 [toEntry sampleProduct 2, toEntry otherProduct 1]).length = 2 ∧
    (updateQuantity 1 5 [toEntry sampleProduct 2, toEntry otherProduct 1])[0]? =
      some { toEntry sampleProduct 2 with quantity := 5 } := by
  refine ⟨(setQuantity_C5 1 0 [toEntry sampleProduct 2]).1 (by decide), ?_, ?_⟩
  · exact ((setQuantity_C5 1 5 [toEntry sampleProduct 2, toEntry otherProduct 1]).2
      (by decide) ⟨toEntry sampleProduct 2, by decide⟩).1.trans (by decide)
  · exact (((setQuantity_C5 1 5 [toEntry sampleProduct 2, toEntry otherProduct 1]).2
      (by decide) ⟨toEntry sampleProduct 2, by decide⟩).2 0).trans (by decide)

/-- C10: a positive-quantity `updateQuantity` on an id with no matching
entry leaves the snapshot unchanged. -/
theorem setQuantity_absent_frame_C10 (productId q : Int) (s : List CartEntry)
    (hq : 0 < q) (habs : ∀ e ∈ s, e.id ≠ productId) :
    updateQuantity productId q s = s := by
  have hne : ¬ q ≤ 0 := not_le.mpr hq
  unfold updateQuantity
  rw [if_neg hne]
  have hmap : ∀ t : List CartEntry, (∀ e ∈ t, e.id ≠ productId) →
      t.map (fun item =>
        if item.id = productId then { item with quantity := q } else item) = t := by
    intro t ht
    induction t with
    | nil => rfl
    | cons e rest ih =>
        have he : e.id ≠ productId := ht e (List.mem_cons_self e rest)
        have hr := ih (fun x hx => ht x (List.mem_cons_of_mem e hx))
        simp [if_neg he, hr]
  exact hmap s habs

/-- C10 witness: a positive update targeting an absent id is a no-op on
a concrete snapshot. -/
theorem setQuantity_absent_frame_C10_witness :
    updateQuantity 7 4 [toEntry sampleProduct 2, toEntry otherProduct 1] =
      [toEntry sampleProduct 2, toEntry otherProduct 1] :=
  setQuantity_absent_frame_C10 7 4 [toEntry sampleProduct 2, toEntry otherProduct 1]
    (by decide) (by decide)

/-- C8: any selector lower-casing to `"work boots & shoes"` or
`"work-boots-and-shoes"` selects exactly the catalog products whose
category is the literal string `"Work Boots & Shoes"`, compared
case-sensitively, in catalog order. -/
theorem workBoots_filter_C8 (sel : String) (catalog : List Product)
    (hsel : jsToLower sel = "work boots & shoes" ∨
      jsToLower sel = "work-boots-and-shoes") :
    categoryProducts sel catalog =
      catalog.filter (fun p => decide (p.category = some "Work Boots & Shoes")) := by
  unfold categoryProducts
  apply List.filter_congr
  intro p _
  unfold matchesCategory
  rcases hsel with h | h <;> rw [h] <;>
    rw [if_neg (by decide), if_neg (by decide), if_neg (by decide),
      if_neg (by decide), if_pos (by decide)]

/-- C8 witness: the mixed-case selector `"Work-Boots-And-Shoes"` applied
to a concrete catalog keeps only the exact-category product. -/
theorem workBoots_filter_C8_witness :
    categoryProducts "Work-Boots-And-Shoes" [sampleProduct, otherProduct] =
      ([sampleProduct, otherProduct] : List Product).filter
        (fun p => decide (p.category = some "Work Boots & Shoes")) ∧
    ([sampleProduct, otherProduct] : List Product).filter
        (fun p => decide (p.category = some "Work Boots & Shoes")) = [sampleProduct] :=
  ⟨workBoots_filter_C8 "Work-Boots-And-Shoes" [sampleProduct, otherProduct]
    (Or.inr (by decide)), by decide⟩

/-- A product whose category is present but is the empty string; JS
treats the empty string as falsy in `!product.category`. -/
def emptyCategoryProduct : Product :=
  { id := 3
    name := "Blank"
    price := 1
    category := some "" }

/-- C9 counterexample: for the default rule, the product's category
(`""`) is defined and equals the selector (`""`) up to letter case, yet
the filter excludes the product, because `!product.category` is true for
the empty string. -/
theorem categoryFilter_C9_counterexample :
    emptyCategoryProduct.category = some "" ∧
    jsToLower "" = jsToLower "" ∧
    categoryProducts "" [emptyCategoryProduct] = [] := by
  refine ⟨rfl, rfl, by decide⟩

/-- C9 (amended): the filter output depends on the selector only through
its lower-cased form; the two rule-1 selector spellings agree; and a
selector that reaches the default rule matches a product exactly when
the product's category is defined, non-empty, and equal to the selector
up to letter case. -/
theorem categoryFilter_caseInsensitive_C9 :
    (∀ s1 s2 : String, ∀ catalog : List Product,
      jsToLower s1 = jsToLower s2 →
      categoryProducts s1 catalog = categoryProducts s2 catalog) ∧
    (∀ catalog : List Product,
      categoryProducts "Sale & Clearance" catalog =
        categoryProducts "sale-clearance" catalog) ∧
    (∀ sel : String, ∀ p : Product,
      jsToLower sel ∉ (["sale & clearance", "sale-clearance", "featured",
        "cyber days", "cyber-days", "black friday", "black-friday",
        "work boots & shoes", "work-boots-and-shoes"] : List String) →
      (matchesCategory sel p = true ↔
        ∃ c, p.category = some c ∧ c ≠ "" ∧ jsToLower c = jsToLower sel)) := by
  refine ⟨?_, ?_, ?_⟩
  · intro s1 s2 catalog h
    unfold categoryProducts
    apply List.filter_congr
    intro p _
    unfold matchesCategory
    rw [h]
  · intro catalog
    unfold categoryProducts
    apply List.filter_congr
    intro p _
    unfold matchesCategory
    rw [if_pos (Or.inl (by decide : jsToLower "Sale & Clearance" = "sale & clearance")),
      if_pos (Or.inr (by decide : jsToLower "sale-clearance" = "sale-clearance"))]
  · intro sel p hnot
    simp only [List.mem_cons, List.not_mem_nil, not_or, or_false] at hnot
    obtain ⟨h1, h2, h3, h4, h5, h6, h7, h8, h9⟩ := hnot
    unfold matchesCategory
    rw [if_neg (not_or.mpr ⟨h1, h2⟩), if_neg h3, if_neg (not_or.mpr ⟨h4, h5⟩),
      if_neg (not_or.mpr ⟨h6, h7⟩), if_neg (not_or.mpr ⟨h8, h9⟩)]
    rcases hcat : p.category with _ | c
    · simp
    · by_cases hc : c = ""
      · simp [hc]
      · simp [hc]

/-- C9 witness: concrete applications of the three parts of the amended
claim. -/
theorem categoryFilter_caseInsensitive_C9_witness :
    categoryProducts "FEATURED" [sampleProduct, otherProduct] =
      categoryProducts "Featured" [sampleProduct, otherProduct] ∧
    categoryProducts "Sale & Clearance" [sampleProduct, otherProduct] =
      categoryProducts "sale-clearance" [sampleProduct, otherProduct] ∧
    (matchesCategory "WORKWEAR" { otherProduct with category := some "Workwear" } = true ↔
      ∃ c, ({ otherProduct with category := some "Workwear" } : Product).category = some c ∧
        c ≠ "" ∧ jsToLower c = jsToLower "WORKWEAR") :=
  ⟨categoryFilter_caseInsensitive_C9.1 "FEATURED" "Featured"
      [sampleProduct, otherProduct] (by decide),
   categoryFilter_caseInsensitive_C9.2.1 [sampleProduct, otherProduct],
   categoryFilter_caseInsensitive_C9.2.2 "WORKWEAR"
      { otherProduct with category := some "Workwear" } (by decide)⟩

/-- C1 counterexample: on a snapshot that already holds the product with
quantity 1, `add(P, 1); add(P, 1)` leaves the single entry with quantity
3, not `m + n = 2`, so the merge law does not hold on arbitrary
snapshots. -/
theorem add_merge_C1_counterexample :
    (addToCart sampleProduct 1
        (addToCart sampleProduct 1 [toEntry sampleProduct 1])).map
      (fun e => e.quantity) = [3] ∧ ¬ ((3 : Int) = 1 + 1) := by
  refine ⟨by decide, by decide⟩

/-- C1 (amended): on a snapshot with no entry for `P.id`, `add(P, m)`
followed by `add(Q, n)` for any `Q` with `Q.id = P.id` appends exactly
one entry for `P.id`, with quantity `m + n` and all captured fields
(price, color, size, and the rest) taken from the first add, leaving the
other entries untouched. -/
theorem add_merge_C1 (P Q : Product) (m n : Int) (s : List CartEntry)
    (hm : 0 < m) (hn : 0 < n) (hid : Q.id = P.id)
    (habs : ∀ e ∈ s, e.id ≠ P.id) :
    addToCart Q n (addToCart P m s) = s ++ [toEntry P (m + n)] := by
  have h1 : addToCart P m s = s ++ [toEntry P m] := by
    unfold addToCart
    rw [if_neg]
    simp only [List.any_eq_true, decide_eq_true_eq, not_exists]
    intro e
    rw [not_and]
    exact fun he => habs e he
  rw [h1]
  unfold addToCart
  rw [if_pos]
  · rw [List.map_append]
    have hs : s.map (fun item =>
        if item.id = Q.id then { item with quantity := item.quantity + n }
        else item) = s := by
      have : ∀ t : List CartEntry, (∀ e ∈ t, e.id ≠ P.id) →
          t.map (fun item =>
            if item.id = Q.id then { item with quantity := item.quantity + n }
            else item) = t := by
        intro t ht
        induction t with
        | nil => rfl
        | cons e rest ih =>
            have he : ¬ e.id = Q.id := by
              rw [hid]
              exact ht e (List.mem_cons_self e rest)
            have hr := ih (fun x hx => ht x (List.mem_cons_of_mem e hx))
            simp [if_neg he, hr]
      exact this s habs
    rw [hs]
    have hlast : (toEntry P m).id = Q.id := by
      rw [hid]
      rfl
    simp only [List.map_cons, List.map_nil, if_pos hlast]
    rfl
  · simp only [List.any_eq_true, decide_eq_true_eq]
    exact ⟨toEntry P m, List.mem_append_right s (List.mem_cons_self _ _), hid.symm⟩

/-- C1 witness: two adds of the same id with different captured fields
on a snapshot holding an unrelated entry merge into one appended entry
carrying the first add's captured fields. -/
theorem add_merge_C1_witness :
    addToCart sampleProductAlt 3
        (addToCart sampleProduct 2 [toEntry otherProduct 1]) =
      [toEntry otherProduct 1] ++ [toEntry sampleProduct (2 + 3)] :=
  add_merge_C1 sampleProduct sampleProductAlt 2 3 [toEntry otherProduct 1]
    (by decide) (by decide) (by decide) (by decide)

/-- C3 counterexample: the snapshot reached from the empty cart by a
single `add` with quantity 0 holds an entry whose quantity is not at
least 1, so the invariant fails on the public operations as stated. -/
theorem cart_quantity_invariant_C3_counterexample :
    ∃ e ∈ runOps [CartOp.add sampleProduct 0], ¬ (1 ≤ e.quantity) := by
  decide

/-- Every mutation started from an all-positive snapshot with a
positive-quantity `add` (other operations unconstrained) yields an
all-positive snapshot. -/
theorem quantity_invariant_applyOp (s : List CartEntry) (op : CartOp)
    (hs : ∀ e ∈ s, 1 ≤ e.quantity) (hop : posAdd op) :
    ∀ e ∈ applyOp s op, 1 ≤ e.quantity := by
  cases op with
  | add p q =>
      have hq : 1 ≤ q := hop
      intro e he
      simp only [applyOp, addToCart] at he
      by_cases hany : s.any (fun item => decide (item.id = p.id)) = true
      · rw [if_pos hany] at he
        obtain ⟨x, hx, hfx⟩ := List.mem_map.mp he
        by_cases hxid : x.id = p.id
        · rw [if_pos hxid] at hfx
          have hx1 := hs x hx
          rw [← hfx]
          show 1 ≤ x.quantity + q
          omega
        · rw [if_neg hxid] at hfx
          exact hfx ▸ hs x hx
      · rw [if_neg hany] at he
        rcases List.mem_append.mp he with hin | hnew
        · exact hs e hin
        · have : e = toEntry p q := List.mem_singleton.mp hnew
          rw [this]
          exact hq
  | remove pid =>
      intro e he
      exact hs e (List.mem_of_mem_filter he)
  | set pid q =>
      intro e he
      simp only [applyOp, updateQuantity] at he
      by_cases hq : q ≤ 0
      · rw [if_pos hq] at he
        exact hs e (List.mem_of_mem_filter he)
      · rw [if_neg hq] at he
        obtain ⟨x, hx, hfx⟩ := List.mem_map.mp he
        by_cases hxid : x.id = pid
        · rw [if_pos hxid] at hfx
          rw [← hfx]
          show 1 ≤ q
          omega
        · rw [if_neg hxid] at hfx
          exact hfx ▸ hs x hx
  | clear =>
      intro e he
      simp [applyOp, clearCart] at he

/-- Invariant preservation along a trace, generalized over the starting
snapshot. -/
theorem quantity_invariant_foldl :
    ∀ (ops : List CartOp) (s : List CartEntry),
      (∀ op ∈ ops, posAdd op) → (∀ e ∈ s, 1 ≤ e.quantity) →
      ∀ e ∈ ops.foldl applyOp s, 1 ≤ e.quantity
  | [], s, _, hs => by simpa [List.foldl] using hs
  | op :: rest, s, hops, hs => by
      simp only [List.foldl_cons]
      exact quantity_invariant_foldl rest (applyOp s op)
        (fun o ho => hops o (List.mem_cons_of_mem op ho))
        (quantity_invariant_applyOp s op hs (hops op (List.mem_cons_self op rest)))

/-- C3 (amended): starting from the empty snapshot, any trace of public
mutations in which every `add` carries a positive quantity (remove, set
and clear unconstrained) reaches only snapshots whose entries all have
quantity at least 1. -/
theorem cart_quantity_invariant_C3 (ops : List CartOp)
    (hops : ∀ op ∈ ops, posAdd op) :
    ∀ e ∈ runOps ops, 1 ≤ e.quantity :=
  quantity_invariant_foldl ops [] hops (by simp)

/-- C3 witness: a concrete positive-add trace evaluates to a snapshot
whose single entry the theorem certifies. -/
theorem cart_quantity_invariant_C3_witness :
    runOps [CartOp.add sampleProduct 2, CartOp.set 1 5,
        CartOp.add otherProduct 1, CartOp.remove 2] =
      [{ toEntry sampleProduct 2 with quantity := 5 }] ∧
    1 ≤ ({ toEntry sampleProduct 2 with quantity := 5 } : CartEntry).quantity :=
  ⟨by decide,
   cart_quantity_invariant_C3
     [CartOp.add sampleProduct 2, CartOp.set 1 5,
       CartOp.add otherProduct 1, CartOp.remove 2]
     (by decide) { toEntry sampleProduct 2 with quantity := 5 } (by decide)⟩

end Marks
